import Mathlib

/-!
Verification development for the FGU → FoundryVTT calendar converter
(`src/fgu_foundy_converter/scripts/convert_calendar.py`).

The script is embedded shallowly:
* XML elements (`xml.etree.ElementTree.Element`) become the inductive
  `XMLElem` carrying tag, attributes, text, children and tail.
* `ElementTree.tostring` becomes `serialize` (attribute and cdata escaping
  of `&`, `<`, `>` etc. is modelled; the `encoding`/`decode` round trip of
  the byte form is the identity on the character data used here).
* Randomness (`randrange(0, 1 << 32)`) is passed in explicitly: every
  function that draws an id receives a stream `ids : Nat → Nat` whose k-th
  value is the k-th draw of the run.
* Raising an exception becomes returning `Except.error` with a message
  describing the Python exception; the `__main__` block becomes `mainRun`
  over a destination file whose line-delimited JSON records are modelled in
  decoded form (`SettingsLine`).
-/

namespace FGU

/-- Model of `xml.etree.ElementTree.Element`: tag name, attributes in
document order, optional text payload, child elements, optional tail text
(text between this element's closing tag and the next sibling). -/
inductive XMLElem : Type where
  | mk (tag : String) (attrib : List (String × String)) (text : Option String)
       (children : List XMLElem) (tail : Option String)

def XMLElem.tag : XMLElem → String
  | .mk t _ _ _ _ => t

def XMLElem.attrib : XMLElem → List (String × String)
  | .mk _ a _ _ _ => a

def XMLElem.text : XMLElem → Option String
  | .mk _ _ tx _ _ => tx

def XMLElem.children : XMLElem → List XMLElem
  | .mk _ _ _ c _ => c

def XMLElem.tail : XMLElem → Option String
  | .mk _ _ _ _ tl => tl

/-- Python truthiness of an `Element.text` value: `None` and `""` are falsy,
every other string (including whitespace-only ones) is truthy. -/
def textTruthy : Option String → Bool
  | none => false
  | some s => if s = "" then false else true

/-- Models `xml.etree.ElementTree._escape_cdata`: the sequential
`replace` of `&`, `<`, `>` (in that order) equals this character map,
because no replacement string contains a character replaced later. -/
def escapeCdata (s : String) : String :=
  String.join (s.toList.map (fun c =>
    if c = '&' then "&amp;"
    else if c = '<' then "&lt;"
    else if c = '>' then "&gt;"
    else String.mk [c]))

/-- Models `xml.etree.ElementTree._escape_attrib`: the sequential
`replace` of `&`, `<`, `>`, `"`, CR, LF, TAB equals this character map,
because no replacement string contains a character replaced later. -/
def escapeAttrib (s : String) : String :=
  String.join (s.toList.map (fun c =>
    if c = '&' then "&amp;"
    else if c = '<' then "&lt;"
    else if c = '>' then "&gt;"
    else if c = '"' then "&quot;"
    else if c = '\r' then "&#13;"
    else if c = '\n' then "&#10;"
    else if c = '\t' then "&#09;"
    else String.mk [c]))

/-- Models `str.strip()` with no argument: leading and trailing whitespace
characters are removed (the whitespace classed by `Char.isWhitespace`,
which covers the whitespace occurring in this data). -/
def pyStrip (s : String) : String :=
  ⟨((s.data.dropWhile Char.isWhitespace).reverse.dropWhile Char.isWhitespace).reverse⟩

/-- Serialized form of an attribute list, as written after a tag name. -/
def attribString (l : List (String × String)) : String :=
  String.join (l.map (fun p => " " ++ p.1 ++ "=\"" ++ escapeAttrib p.2 ++ "\""))

/-- Cdata written for an optional text or tail payload: the serializer only
writes it when the payload is truthy (`if text:` / `if elem.tail:`). -/
def truthyText : Option String → String
  | none => ""
  | some t => if t = "" then "" else escapeCdata t

mutual

/-- Models `ElementTree.tostring(element).decode()`: a start tag with
attributes, then (when the element has truthy text or any children) the
escaped text, the serialized children and an end tag, otherwise a
self-closing `<tag />`; the element's own tail text is written last. -/
def serialize : XMLElem → String
  | .mk tag attrib text children tail =>
    "<" ++ tag ++ attribString attrib ++
    (if textTruthy text || !children.isEmpty then
      ">" ++ truthyText text ++ serializeChildren children ++ "</" ++ tag ++ ">"
     else " />") ++
    truthyText tail

/-- Serialization of a child list in document order; each child's
serialization carries its own tail text. -/
def serializeChildren : List XMLElem → String
  | [] => ""
  | c :: cs => serialize c ++ serializeChildren cs

end

/-- Models `textify` (line 79): join, over the children whose `text` is
truthy, of the whitespace-stripped serialization of each child. -/
def textify (element : XMLElem) : String :=
  String.join (((element.children).filter (fun c => textTruthy c.text)).map
    (fun c => pyStrip (serialize c)))

/-- Models `Element.find` for a plain tag name: first direct child whose tag
matches. -/
def findChild (e : XMLElem) (t : String) : Option XMLElem :=
  e.children.find? (fun c => c.tag == t)

/-- Value of a nonempty all-digit character list, or `none`. -/
def digitsVal : List Char → Option Nat
  | [] => none
  | l =>
    if l.all Char.isDigit then
      some (l.foldl (fun a c => 10 * a + (c.toNat - 48)) 0)
    else none

/-- Models `int(s)` on a decimal string literal: surrounding whitespace is
ignored, an optional sign precedes the digits; anything else fails. -/
def pyInt (s : String) : Option Int :=
  match (pyStrip s).toList with
  | '+' :: rest => (digitsVal rest).map (fun n => (n : Int))
  | '-' :: rest => (digitsVal rest).map (fun n => -(n : Int))
  | l => (digitsVal l).map (fun n => (n : Int))

/-- Models `int(fgu_entry.find(name).text)` (line 106): `find` returning
`None` raises `AttributeError`, a `None` text raises `TypeError`, and a
non-numeric text raises `ValueError`; each is modelled as an error value. -/
def timeField (e : XMLElem) (name : String) : Except String Int :=
  match findChild e name with
  | none => .error ("AttributeError: NoneType has no attribute text: " ++ name)
  | some c =>
    match c.text with
    | none => .error ("TypeError: int() argument is None: " ++ name)
    | some t =>
      match pyInt t with
      | none => .error ("ValueError: invalid literal for int(): " ++ t)
      | some v => .ok v

/-- Models the dict comprehension over `["year", "month", "day"]`
(lines 105-108): the three temporal fields, integer-converted, in order. -/
def timeOf (e : XMLElem) : Except String (Int × Int × Int) :=
  match timeField e "year" with
  | .error msg => .error msg
  | .ok y =>
    match timeField e "month" with
    | .error msg => .error msg
    | .ok m =>
      match timeField e "day" with
      | .error msg => .error msg
      | .ok d => .ok (y, m, d)

/-- A temporal field of an entry is malformed: the child is missing, its
text is absent, or its text is not an integer literal. -/
def timeFieldBad (e : XMLElem) (name : String) : Bool :=
  match findChild e name with
  | none => true
  | some c =>
    match c.text with
    | none => true
    | some t => (pyInt t).isNone

/-- Lowercase hexadecimal digit for a value below 16. -/
def hexDigit (n : Nat) : Char :=
  if n < 10 then Char.ofNat (48 + n) else Char.ofNat (87 + n)

/-- Fuel-driven helper for `natToHex`; any fuel above the number is
enough, because dividing by 16 decreases the number. -/
def natToHexAux : Nat → Nat → List Char
  | 0, _ => []
  | fuel + 1, n =>
    if n < 16 then [hexDigit n]
    else natToHexAux fuel (n / 16) ++ [hexDigit (n % 16)]

/-- Lowercase hexadecimal digit list of a natural number, most significant
digit first (`"0"` for zero). -/
def natToHex (n : Nat) : List Char :=
  natToHexAux (n + 1) n

lemma natToHexAux_fuel : ∀ n f₁ f₂ : Nat, n < f₁ → n < f₂ →
    natToHexAux f₁ n = natToHexAux f₂ n := by
  intro n
  induction n using Nat.strong_induction_on with
  | _ n ih =>
    intro f₁ f₂ h₁ h₂
    cases f₁ with
    | zero => omega
    | succ g₁ =>
      cases f₂ with
      | zero => omega
      | succ g₂ =>
        simp only [natToHexAux]
        split
        · rfl
        · rename_i hge
          have hdiv : n / 16 < n := Nat.div_lt_self (by omega) (by omega)
          rw [ih (n / 16) hdiv g₁ g₂ (by omega) (by omega)]

/-- Unfolding equation for `natToHex`. -/
lemma natToHex_eq (n : Nat) : natToHex n
    = if n < 16 then [hexDigit n] else natToHex (n / 16) ++ [hexDigit (n % 16)] := by
  show natToHexAux (n + 1) n = _
  simp only [natToHexAux]
  split
  · rfl
  · rename_i hge
    have hdiv : n / 16 < n := Nat.div_lt_self (by omega) (by omega)
    rw [natToHexAux_fuel (n / 16) n (n / 16 + 1) (by omega) (by omega)]
    rfl

/-- Models the format string `"{0:08x}".format(n)`: lowercase hexadecimal,
left-padded with zeros to a minimum width of 8. -/
def format08x (n : Nat) : String :=
  ⟨List.replicate (8 - (natToHex n).length) '0' ++ natToHex n⟩

/-- Models `get_id` (line 71) with the draw of `randrange(0, 1 << 32)`
passed explicitly. -/
def get_id (r : Nat) : String :=
  format08x r

/-- The character is one of `0`-`9` or `a`-`f`. -/
def isLowerHexDigit (c : Char) : Bool :=
  if (48 ≤ c.toNat ∧ c.toNat ≤ 57) ∨ (97 ≤ c.toNat ∧ c.toNat ≤ 102) then true
  else false

/-- Numeric value of a lowercase hexadecimal digit character. -/
def hexDigitVal (c : Char) : Nat :=
  if c.toNat ≤ 57 then c.toNat - 48 else c.toNat - 87

/-- Value of a lowercase hexadecimal digit list, most significant first. -/
def hexVal (l : List Char) : Nat :=
  l.foldl (fun a c => 16 * a + hexDigitVal c) 0

/-- The `endDate` substructure of a destination note (lines 121-124). -/
structure EndDate where
  seconds : Int
  year : Int
  month : Int
  day : Int
  hour : Int
  minute : Int
deriving DecidableEq, Repr

/-- A destination note as built on lines 138-148, one field per dictionary
key. -/
structure Note where
  id : String
  content : String
  playerVisible : Bool
  title : String
  priority : Int
  author : String
  repeats : Int
  allDay : Bool
  categories : List String
  remindUsers : List String
  endDate : EndDate
  year : Int
  month : Int
  day : Int
  hour : Int
  minute : Int
deriving DecidableEq, Repr

/-- The note dictionary yielded on lines 138-148 for one visibility variant:
`id` from the given draw, the variant's title and visibility, `priority`
`int(not is_public)`, and the shared fields of `base_entry` (lines 115-126,
with `hour`/`minute` defaulted to 0 on lines 111-112). -/
def mkNote (public_title private_title author : String) (y m d : Int)
    (is_public : Bool) (content : String) (r : Nat) : Note where
  id := get_id r
  content := content
  playerVisible := is_public
  title := if is_public then public_title else private_title
  priority := if is_public then 0 else 1
  author := author
  repeats := 0
  allDay := true
  categories := []
  remindUsers := []
  endDate := { seconds := 0, year := y, month := m, day := d, hour := 0, minute := 0 }
  year := y
  month := m
  day := d
  hour := 0
  minute := 0

/-- The same note with its `id` field blanked, for comparing runs that
differ only in the random draws. -/
def stripId (n : Note) : Note :=
  { n with id := "" }

/-- Models `get_fvtt_entries` (lines 99-148) with the generator forced to a
list, as `list(chain.from_iterable(...))` does on line 223: the temporal
fields are read and converted (an exception there is an error value), then
the public variant (`logentry`) and the private variant (`gmlogentry`) are
processed in that order; a variant with empty extracted text yields no note
(lines 133-135); `find` returning `None` for a variant makes `textify`
raise. The k-th emitted note consumes draw `ids k`. -/
def split_entry (fgu_entry : XMLElem) (public_title private_title author : String)
    (ids : Nat → Nat) : Except String (List Note) :=
  match timeOf fgu_entry with
  | .error msg => .error msg
  | .ok (y, m, d) =>
    match findChild fgu_entry "logentry" with
    | none => .error "TypeError: textify iterated None (logentry missing)"
    | some pub =>
      match findChild fgu_entry "gmlogentry" with
      | none => .error "TypeError: textify iterated None (gmlogentry missing)"
      | some priv =>
        .ok ((if textify pub = "" then []
              else [mkNote public_title private_title author y m d true
                      (textify pub) (ids 0)]) ++
             (if textify priv = "" then []
              else [mkNote public_title private_title author y m d false
                      (textify priv)
                      (ids (if textify pub = "" then 0 else 1))]))

/-- Drops the first `k` draws of an id stream. -/
def shiftIds (ids : Nat → Nat) (k : Nat) : Nat → Nat :=
  fun i => ids (k + i)

/-- Models `list(chain.from_iterable(map(converter, fgu_db_logs)))`
(line 223): the per-entry conversions concatenated in order, the first
exception aborting the whole list. -/
def collectEntries (public_title private_title author : String) :
    List XMLElem → (Nat → Nat) → Except String (List Note)
  | [], _ => .ok []
  | e :: rest, ids =>
    match split_entry e public_title private_title author ids with
    | .error msg => .error msg
    | .ok notes =>
      match collectEntries public_title private_title author rest
          (shiftIds ids notes.length) with
      | .error msg => .error msg
      | .ok more => .ok (notes ++ more)

/-- The ID of the FVTT settings entry where calendar notes are located
(line 68). -/
def CAL_SETTINGS : String :=
  "foundryvtt-simple-calendar.notes"

/-- One line of the destination settings file, in decoded form: the `key`
and `value` fields of the JSON object the line holds. -/
structure SettingsLine where
  key : String
  value : String
deriving DecidableEq, Repr

/-- Models the find-and-replace loop of lines 227-240: the first line whose
`key` equals `CAL_SETTINGS` gets the new value; `none` models the `else`
branch of the loop, which exits the program. -/
def spliceValue (newValue : String) : List SettingsLine → Option (List SettingsLine)
  | [] => none
  | l :: rest =>
    if l.key == CAL_SETTINGS then some ({ l with value := newValue } :: rest)
    else (spliceValue newValue rest).map (l :: ·)

/-- JSON string escaping for the encoder model. -/
def jsonEscape (s : String) : String :=
  String.join (s.toList.map (fun c =>
    if c = '"' then "\\\""
    else if c = '\\' then "\\\\"
    else if c = '\n' then "\\n"
    else if c = '\r' then "\\r"
    else if c = '\t' then "\\t"
    else String.mk [c]))

def jstr (s : String) : String :=
  "\"" ++ jsonEscape s ++ "\""

def jint (i : Int) : String :=
  toString i

def jbool (b : Bool) : String :=
  if b then "true" else "false"

def jlist (l : List String) : String :=
  "[" ++ String.intercalate ", " (l.map jstr) ++ "]"

/-- JSON encoding of the `endDate` dictionary, keys in insertion order. -/
def dumpsEndDate (d : EndDate) : String :=
  "\x7b\"seconds\": " ++ jint d.seconds ++ ", \"year\": " ++ jint d.year ++
  ", \"month\": " ++ jint d.month ++ ", \"day\": " ++ jint d.day ++
  ", \"hour\": " ++ jint d.hour ++ ", \"minute\": " ++ jint d.minute ++ "\x7d"

/-- JSON encoding of one note dictionary, keys in insertion order. -/
def dumpsNote (n : Note) : String :=
  "\x7b\"id\": " ++ jstr n.id ++ ", \"content\": " ++ jstr n.content ++
  ", \"playerVisible\": " ++ jbool n.playerVisible ++
  ", \"title\": " ++ jstr n.title ++ ", \"priority\": " ++ jint n.priority ++
  ", \"author\": " ++ jstr n.author ++ ", \"repeats\": " ++ jint n.repeats ++
  ", \"allDay\": " ++ jbool n.allDay ++ ", \"categories\": " ++ jlist n.categories ++
  ", \"remindUsers\": " ++ jlist n.remindUsers ++
  ", \"endDate\": " ++ dumpsEndDate n.endDate ++ ", \"year\": " ++ jint n.year ++
  ", \"month\": " ++ jint n.month ++ ", \"day\": " ++ jint n.day ++
  ", \"hour\": " ++ jint n.hour ++ ", \"minute\": " ++ jint n.minute ++ "\x7d"

/-- Models `dumps(fvtt_entries)` on line 237. -/
def dumpsNotes (l : List Note) : String :=
  "[" ++ String.intercalate ", " (l.map dumpsNote) ++ "]"

/-- Models `fgu_db_root.find("./calendar/log")` (line 213): the first `log`
child of a `calendar` child, in document order. -/
def findCalendarLog (root : XMLElem) : Option XMLElem :=
  ((root.children).filter (fun c => c.tag == "calendar")).findSome?
    (fun cal => findChild cal "log")

/-- Outcome of one run of the `__main__` block, from the backup copy on:
whether the backup was created, the exception or `exit` message of an
aborted run, the process exit code, and the final decoded content of the
destination settings file. -/
structure RunResult where
  backupCreated : Bool
  errorMsg : Option String
  exitCode : Nat
  dest : List SettingsLine
deriving DecidableEq, Repr

/-- Models the `__main__` block from line 202 on, for an already parsed
source document `root` and a destination file given as its decoded lines:
the backup copy is made first; the log children other than the `public`
marker are converted; line 224 prints `fvtt_entries[50]`, raising
`IndexError` when fewer than 51 notes exist; the settings line is located
and respliced, `exit(...)` with a message when the key is absent; only then
is the destination rewritten. `exit(msg)` exits with code 1. -/
def mainRun (root : XMLElem) (public_title private_title author : String)
    (ids : Nat → Nat) (dest : List SettingsLine) : RunResult :=
  match findCalendarLog root with
  | none =>
    { backupCreated := true, errorMsg := some "TypeError: NoneType is not iterable",
      exitCode := 1, dest := dest }
  | some logEl =>
    match collectEntries public_title private_title author
        ((logEl.children).filter (fun c => c.tag != "public")) ids with
    | .error msg =>
      { backupCreated := true, errorMsg := some msg, exitCode := 1, dest := dest }
    | .ok entries =>
      if entries.length ≤ 50 then
        { backupCreated := true, errorMsg := some "IndexError: list index out of range",
          exitCode := 1, dest := dest }
      else
        match spliceValue (dumpsNotes entries) dest with
        | none =>
          { backupCreated := true,
            errorMsg := some ("Failed to find settings: " ++ CAL_SETTINGS),
            exitCode := 1, dest := dest }
        | some newDest =>
          { backupCreated := true, errorMsg := none, exitCode := 0, dest := newDest }

/-- The notes a run of the `__main__` block converts out of the source
document, when the conversion stage succeeds. -/
def runCollect (root : XMLElem) (public_title private_title author : String)
    (ids : Nat → Nat) : Option (List Note) :=
  match findCalendarLog root with
  | none => none
  | some logEl =>
    match collectEntries public_title private_title author
        ((logEl.children).filter (fun c => c.tag != "public")) ids with
    | .ok l => some l
    | .error _ => none

/-- Models the write step of lines 242-245 at the byte level: `seek(0)`
then `writelines(lines)` overwrites the first bytes of the old content with
the joined lines; line 245 reads the attribute `args["fvtt"].truncate`
without calling it, so the old content beyond the written length is kept. -/
def overwriteSettings (old : String) (lines : List String) : String :=
  let written := String.join lines
  written ++ String.drop old written.length

/-- The first list starts with the second one. -/
def leadsWith : List Char → List Char → Bool
  | _, [] => true
  | [], _ :: _ => false
  | h :: t, x :: xs => h == x && leadsWith t xs

/-- The second list occurs contiguously inside the first one. -/
def hasSub : List Char → List Char → Bool
  | [], sub => sub.isEmpty
  | h :: t, sub => leadsWith (h :: t) sub || hasSub t sub

/-- The message mentions the given name verbatim. -/
def mentions (msg name : String) : Bool :=
  hasSub msg.data name.data

/-! Lemmas about the hexadecimal id format. -/

lemma natToHex_length_le : ∀ k n : Nat, 0 < k → n < 16 ^ k → (natToHex n).length ≤ k := by
  intro k
  induction k with
  | zero => intro n h _; omega
  | succ k ih =>
    intro n _ hn
    rw [natToHex_eq]
    split
    · simp
    · rename_i hge
      simp only [List.length_append, List.length_cons, List.length_nil]
      have hdiv : n / 16 < 16 ^ k := by
        apply Nat.div_lt_of_lt_mul
        have e : (16 : Nat) ^ (k + 1) = 16 * 16 ^ k := by ring
        omega
      cases Nat.eq_zero_or_pos k with
      | inl h0 =>
        subst h0
        simp at hdiv
        omega
      | inr hpos =>
        have := ih (n / 16) hpos hdiv
        omega

lemma hexDigit_lower (m : Nat) (hm : m < 16) : isLowerHexDigit (hexDigit m) = true := by
  interval_cases m <;> decide

lemma natToHex_chars (n : Nat) : ∀ c ∈ natToHex n, isLowerHexDigit c = true := by
  induction n using Nat.strong_induction_on with
  | _ n ih =>
    intro c hc
    rw [natToHex_eq] at hc
    split at hc
    · rename_i h16
      simp only [List.mem_singleton] at hc
      subst hc
      exact hexDigit_lower n h16
    · rename_i h16
      rw [List.mem_append] at hc
      cases hc with
      | inl h => exact ih (n / 16) (Nat.div_lt_self (by omega) (by omega)) c h
      | inr h =>
        simp only [List.mem_singleton] at h
        subst h
        exact hexDigit_lower _ (Nat.mod_lt _ (by omega))

lemma hexDigitVal_hexDigit (m : Nat) (hm : m < 16) : hexDigitVal (hexDigit m) = m := by
  interval_cases m <;> decide

lemma natToHex_foldl (n : Nat) : ∀ a : Nat,
    (natToHex n).foldl (fun a c => 16 * a + hexDigitVal c) a
      = a * 16 ^ (natToHex n).length + n := by
  induction n using Nat.strong_induction_on with
  | _ n ih =>
    intro a
    rw [natToHex_eq]
    split
    · rename_i h16
      simp only [List.foldl_cons, List.foldl_nil, List.length_singleton,
        hexDigitVal_hexDigit n h16]
      ring
    · rename_i h16
      rw [List.foldl_append]
      have hd : n / 16 < n := Nat.div_lt_self (by omega) (by omega)
      rw [ih (n / 16) hd a]
      simp only [List.foldl_cons, List.foldl_nil,
        hexDigitVal_hexDigit (n % 16) (Nat.mod_lt _ (by omega)),
        List.length_append, List.length_singleton]
      have h1 : 16 * (n / 16) + n % 16 = n := Nat.div_add_mod n 16
      have e1 : 16 * (a * 16 ^ (natToHex (n / 16)).length + n / 16) + n % 16
          = a * (16 ^ (natToHex (n / 16)).length * 16) + (16 * (n / 16) + n % 16) := by
        ring
      rw [e1, h1, ← pow_succ]

lemma hexVal_natToHex (n : Nat) : hexVal (natToHex n) = n := by
  have h := natToHex_foldl n 0
  simpa [hexVal] using h

lemma foldl_replicate_zero (k : Nat) :
    List.foldl (fun a c => 16 * a + hexDigitVal c) 0 (List.replicate k '0') = 0 := by
  induction k with
  | zero => rfl
  | succ k ih =>
    rw [List.replicate_succ, List.foldl_cons]
    exact ih

lemma hexVal_replicate_zero (k : Nat) (l : List Char) :
    hexVal (List.replicate k '0' ++ l) = hexVal l := by
  simp only [hexVal, List.foldl_append, foldl_replicate_zero]

lemma format08x_inj (a b : Nat) (h : format08x a = format08x b) : a = b := by
  have hd := congrArg String.data h
  simp only [format08x] at hd
  have hv := congrArg hexVal hd
  rwa [hexVal_replicate_zero, hexVal_replicate_zero, hexVal_natToHex,
    hexVal_natToHex] at hv

lemma format08x_length (n : Nat) (h : n < 2 ^ 32) : (format08x n).length = 8 := by
  have hle : (natToHex n).length ≤ 8 := by
    apply natToHex_length_le 8 n (by omega)
    have e : (16 : Nat) ^ 8 = 2 ^ 32 := by norm_num
    omega
  have hlen : (format08x n).length
      = (List.replicate (8 - (natToHex n).length) '0' ++ natToHex n).length := by
    simp [format08x, String.length]
  rw [hlen, List.length_append, List.length_replicate]
  omega

lemma format08x_chars (n : Nat) : ∀ c ∈ (format08x n).data, isLowerHexDigit c = true := by
  intro c hc
  have hc' : c ∈ List.replicate (8 - (natToHex n).length) '0' ++ natToHex n := hc
  rw [List.mem_append] at hc'
  cases hc' with
  | inl h =>
    have := List.eq_of_mem_replicate h
    subst this
    decide
  | inr h => exact natToHex_chars n c h

/-! Structure of a successful `split_entry` result. -/

lemma split_entry_ok_shape {e : XMLElem} {pt pv a : String} {ids : Nat → Nat}
    {notes : List Note} (hok : split_entry e pt pv a ids = .ok notes) :
    ∃ y m d pub priv, timeOf e = .ok (y, m, d) ∧
      findChild e "logentry" = some pub ∧ findChild e "gmlogentry" = some priv ∧
      notes = (if textify pub = "" then []
               else [mkNote pt pv a y m d true (textify pub) (ids 0)]) ++
              (if textify priv = "" then []
               else [mkNote pt pv a y m d false (textify priv)
                      (ids (if textify pub = "" then 0 else 1))]) := by
  unfold split_entry at hok
  split at hok
  · exact absurd hok (by simp)
  · rename_i y m d heq
    split at hok
    · exact absurd hok (by simp)
    · rename_i pub hpub
      split at hok
      · exact absurd hok (by simp)
      · rename_i priv hpriv
        injection hok with hnotes
        exact ⟨y, m, d, pub, priv, heq, hpub, hpriv, hnotes.symm⟩

/-! Sample source data used by the witnesses. -/

/-- A nonempty public block, `<logentry type="formattedtext"><p>…</p></logentry>`. -/
def samplePubBlock : XMLElem :=
  .mk "logentry" [("type", "formattedtext")]
    none [.mk "p" [] (some "Returned to Elesomare.") [] none] none

/-- A nonempty private block. -/
def samplePrivBlock : XMLElem :=
  .mk "gmlogentry" [("type", "formattedtext")]
    none [.mk "p" [] (some "Left Karina in the company of Sharvaros.") [] none] none

/-- A public block whose only child is the placeholder `<p />`. -/
def emptyPubBlock : XMLElem :=
  .mk "logentry" [("type", "formattedtext")] none [.mk "p" [] none [] none] none

/-- A private block whose only child has an empty text payload. -/
def emptyPrivBlock : XMLElem :=
  .mk "gmlogentry" [("type", "formattedtext")] none [.mk "p" [] (some "") [] none] none

/-- The temporal and name children shared by the sample entries. -/
def sampleTimeChildren : List XMLElem :=
  [.mk "public" [] none [] (some "\n"),
   .mk "day" [("type", "number")] (some "9") [] (some "\n"),
   .mk "month" [("type", "number")] (some "1") [] (some "\n"),
   .mk "name" [("type", "string")] (some "9th Abadius, 4721 ") [] (some "\n"),
   .mk "year" [("type", "number")] (some "4721") [] (some "\n")]

/-- A source entry with both blocks non-empty. -/
def sampleEntryBoth : XMLElem :=
  .mk "id-00134" [] (some "\n")
    (sampleTimeChildren ++ [samplePrivBlock, samplePubBlock]) none

/-- A source entry with both blocks empty. -/
def sampleEntryEmpty : XMLElem :=
  .mk "id-00135" [] (some "\n")
    (sampleTimeChildren ++ [emptyPrivBlock, emptyPubBlock]) none

/-- A source entry with only the public block non-empty. -/
def sampleEntryPubOnly : XMLElem :=
  .mk "id-00136" [] (some "\n")
    (sampleTimeChildren ++ [emptyPrivBlock, samplePubBlock]) none

/-- The id stream drawing zero every time. -/
def idsZero : Nat → Nat := fun _ => 0

/-- C1: a source entry whose public and private blocks both render to
non-empty text yields exactly two destination notes, the public one first
with priority 0, the private one second with priority 1, and the two notes
agree on `year`, `month`, `day`, `author` and `endDate`. -/
theorem c1_both_blocks_two_notes (e : XMLElem) (pt pv a : String) (ids : Nat → Nat)
    (y m d : Int) (pub priv : XMLElem)
    (hy : timeOf e = .ok (y, m, d))
    (hpub : findChild e "logentry" = some pub)
    (hpriv : findChild e "gmlogentry" = some priv)
    (hpc : textify pub ≠ "") (hvc : textify priv ≠ "") :
    ∃ n₁ n₂, split_entry e pt pv a ids = .ok [n₁, n₂] ∧
      n₁.playerVisible = true ∧ n₂.playerVisible = false ∧
      n₁.priority = 0 ∧ n₂.priority = 1 ∧
      n₁.year = n₂.year ∧ n₁.month = n₂.month ∧ n₁.day = n₂.day ∧
      n₁.author = n₂.author ∧ n₁.endDate = n₂.endDate := by
  refine ⟨mkNote pt pv a y m d true (textify pub) (ids 0),
          mkNote pt pv a y m d false (textify priv) (ids 1), ?_, ?_, ?_, ?_, ?_,
          ?_, ?_, ?_, ?_, ?_⟩
  · simp [split_entry, hy, hpub, hpriv, hpc, hvc]
  all_goals simp [mkNote]

/-- Closed instance of C1 on a concrete entry. -/
theorem c1_witness :
    (timeOf sampleEntryBoth = .ok (4721, 1, 9) ∧
     findChild sampleEntryBoth "logentry" = some samplePubBlock ∧
     findChild sampleEntryBoth "gmlogentry" = some samplePrivBlock ∧
     textify samplePubBlock ≠ "" ∧ textify samplePrivBlock ≠ "") ∧
    ∃ n₁ n₂, split_entry sampleEntryBoth "Journal" "Notes" "zph8yxjDa80f9VnL"
        idsZero = .ok [n₁, n₂] ∧
      n₁.playerVisible = true ∧ n₂.playerVisible = false ∧
      n₁.priority = 0 ∧ n₂.priority = 1 ∧
      n₁.year = n₂.year ∧ n₁.month = n₂.month ∧ n₁.day = n₂.day ∧
      n₁.author = n₂.author ∧ n₁.endDate = n₂.endDate :=
  ⟨⟨rfl, rfl, rfl, by decide, by decide⟩,
   c1_both_blocks_two_notes sampleEntryBoth "Journal" "Notes" "zph8yxjDa80f9VnL"
     idsZero 4721 1 9 samplePubBlock samplePrivBlock rfl rfl rfl
     (by decide) (by decide)⟩

/-- C2: a source entry whose blocks both render to empty text yields the
empty note sequence, and in general a variant with empty extracted text
produces no note, so no emitted note has empty content. -/
theorem c2_empty_blocks_no_notes (e : XMLElem) (pt pv a : String) (ids : Nat → Nat)
    (y m d : Int) (pub priv : XMLElem)
    (hy : timeOf e = .ok (y, m, d))
    (hpub : findChild e "logentry" = some pub)
    (hpriv : findChild e "gmlogentry" = some priv)
    (hpc : textify pub = "") (hvc : textify priv = "") :
    split_entry e pt pv a ids = .ok [] ∧
    ∀ (e' : XMLElem) (pt' pv' a' : String) (ids' : Nat → Nat) (notes : List Note),
      split_entry e' pt' pv' a' ids' = .ok notes → ∀ nt ∈ notes, nt.content ≠ "" := by
  constructor
  · simp [split_entry, hy, hpub, hpriv, hpc, hvc]
  · intro e' pt' pv' a' ids' notes hok nt hnt
    obtain ⟨y', m', d', pub', priv', _, _, _, hnotes⟩ := split_entry_ok_shape hok
    subst hnotes
    rw [List.mem_append] at hnt
    cases hnt with
    | inl h =>
      by_cases hc : textify pub' = ""
      · simp [hc] at h
      · simp only [if_neg hc, List.mem_singleton] at h
        subst h
        simpa [mkNote] using hc
    | inr h =>
      by_cases hc : textify priv' = ""
      · simp [hc] at h
      · simp only [if_neg hc, List.mem_singleton] at h
        subst h
        simpa [mkNote] using hc

/-- Closed instance of C2 on a concrete entry. -/
theorem c2_witness :
    (timeOf sampleEntryEmpty = .ok (4721, 1, 9) ∧
     findChild sampleEntryEmpty "logentry" = some emptyPubBlock ∧
     findChild sampleEntryEmpty "gmlogentry" = some emptyPrivBlock ∧
     textify emptyPubBlock = "" ∧ textify emptyPrivBlock = "") ∧
    (split_entry sampleEntryEmpty "Journal" "Notes" "zph8yxjDa80f9VnL" idsZero
        = .ok [] ∧
     ∀ (e' : XMLElem) (pt' pv' a' : String) (ids' : Nat → Nat) (notes : List Note),
       split_entry e' pt' pv' a' ids' = .ok notes → ∀ nt ∈ notes, nt.content ≠ "") :=
  ⟨⟨rfl, rfl, rfl, rfl, rfl⟩,
   c2_empty_blocks_no_notes sampleEntryEmpty "Journal" "Notes" "zph8yxjDa80f9VnL"
     idsZero 4721 1 9 emptyPubBlock emptyPrivBlock rfl rfl rfl rfl rfl⟩

/-- C5: every note produced by `split_entry` has an id of exactly eight
lowercase hexadecimal characters when the random draws lie in the 32-bit
range, and `get_id` is injective on that range, so uniform draws give
uniformly distributed ids. -/
theorem c5_id_shape (e : XMLElem) (pt pv a : String) (ids : Nat → Nat)
    (notes : List Note)
    (hlt : ∀ k, ids k < 2 ^ 32)
    (hok : split_entry e pt pv a ids = .ok notes) :
    (∀ nt ∈ notes, nt.id.length = 8 ∧ ∀ c ∈ nt.id.data, isLowerHexDigit c = true) ∧
    (∀ r₁ r₂, r₁ < 2 ^ 32 → r₂ < 2 ^ 32 → get_id r₁ = get_id r₂ → r₁ = r₂) := by
  constructor
  · intro nt hnt
    obtain ⟨y, m, d, pub, priv, _, _, _, hnotes⟩ := split_entry_ok_shape hok
    subst hnotes
    have hshape : ∀ r : Nat, r < 2 ^ 32 →
        (get_id r).length = 8 ∧ ∀ c ∈ (get_id r).data, isLowerHexDigit c = true :=
      fun r hr => ⟨format08x_length r hr, format08x_chars r⟩
    rw [List.mem_append] at hnt
    cases hnt with
    | inl h =>
      by_cases hc : textify pub = ""
      · simp [hc] at h
      · simp only [if_neg hc, List.mem_singleton] at h
        subst h
        exact hshape _ (hlt _)
    | inr h =>
      by_cases hc : textify priv = ""
      · simp [hc] at h
      · simp only [if_neg hc, List.mem_singleton] at h
        subst h
        exact hshape _ (hlt _)
  · intro r₁ r₂ _ _ h
    exact format08x_inj _ _ h

/-- The single note produced from `sampleEntryPubOnly` under zero draws. -/
def samplePubOnlyNote : Note where
  id := "00000000"
  content := "<p>Returned to Elesomare.</p>"
  playerVisible := true
  title := "Journal"
  priority := 0
  author := "zph8yxjDa80f9VnL"
  repeats := 0
  allDay := true
  categories := []
  remindUsers := []
  endDate := { seconds := 0, year := 4721, month := 1, day := 9, hour := 0, minute := 0 }
  year := 4721
  month := 1
  day := 9
  hour := 0
  minute := 0

/-- Closed instance of C5 on a concrete entry. -/
theorem c5_witness :
    ((∀ k, idsZero k < 2 ^ 32) ∧
     split_entry sampleEntryPubOnly "Journal" "Notes" "zph8yxjDa80f9VnL" idsZero
       = .ok [samplePubOnlyNote]) ∧
    ((∀ nt ∈ [samplePubOnlyNote],
        nt.id.length = 8 ∧ ∀ c ∈ nt.id.data, isLowerHexDigit c = true) ∧
     (∀ r₁ r₂, r₁ < 2 ^ 32 → r₂ < 2 ^ 32 → get_id r₁ = get_id r₂ → r₁ = r₂)) :=
  ⟨⟨fun _ => by simp only [idsZero]; norm_num, by rfl⟩,
   c5_id_shape sampleEntryPubOnly "Journal" "Notes" "zph8yxjDa80f9VnL" idsZero
     [samplePubOnlyNote] (fun _ => by simp only [idsZero]; norm_num) (by rfl)⟩

/-! Determinism of the conversion up to the random ids. -/

lemma split_entry_stripId (e : XMLElem) (pt pv a : String) (ids₁ ids₂ : Nat → Nat) :
    Except.map (List.map stripId) (split_entry e pt pv a ids₁) =
    Except.map (List.map stripId) (split_entry e pt pv a ids₂) := by
  unfold split_entry
  cases timeOf e with
  | error msg => rfl
  | ok t =>
    obtain ⟨y, m, d⟩ := t
    cases findChild e "logentry" with
    | none => rfl
    | some pub =>
      cases findChild e "gmlogentry" with
      | none => rfl
      | some priv =>
        by_cases h1 : textify pub = "" <;> by_cases h2 : textify priv = "" <;>
          simp [h1, h2, Except.map, stripId, mkNote]

/-- C8: two conversions of the same source entries with the same titles and
author, differing only in the random draws, produce note lists equal in
every field except `id` (and hence of equal length). -/
theorem c8_runs_equal_except_id (logs : List XMLElem) (pt pv a : String)
    (ids₁ ids₂ : Nat → Nat) :
    Except.map (List.map stripId) (collectEntries pt pv a logs ids₁) =
    Except.map (List.map stripId) (collectEntries pt pv a logs ids₂) := by
  induction logs generalizing ids₁ ids₂ with
  | nil => rfl
  | cons e rest ih =>
    have hse := split_entry_stripId e pt pv a ids₁ ids₂
    unfold collectEntries
    cases h1 : split_entry e pt pv a ids₁ with
    | error m1 =>
      rw [h1] at hse
      cases h2 : split_entry e pt pv a ids₂ with
      | error m2 =>
        rw [h2] at hse
        simp only [Except.map] at hse
        injection hse with hm
        subst hm
        rfl
      | ok l2 =>
        rw [h2] at hse
        simp [Except.map] at hse
    | ok l1 =>
      rw [h1] at hse
      cases h2 : split_entry e pt pv a ids₂ with
      | error m2 =>
        rw [h2] at hse
        simp [Except.map] at hse
      | ok l2 =>
        rw [h2] at hse
        simp only [Except.map] at hse
        injection hse with hmap
        have ihh := ih (shiftIds ids₁ l1.length) (shiftIds ids₂ l2.length)
        dsimp only
        cases hc1 : collectEntries pt pv a rest (shiftIds ids₁ l1.length) with
        | error m =>
          rw [hc1] at ihh
          cases hc2 : collectEntries pt pv a rest (shiftIds ids₂ l2.length) with
          | error m2 =>
            rw [hc2] at ihh
            simp only [Except.map] at ihh
            injection ihh with hm
            subst hm
            rfl
          | ok r2 =>
            rw [hc2] at ihh
            simp [Except.map] at ihh
        | ok r1 =>
          rw [hc1] at ihh
          cases hc2 : collectEntries pt pv a rest (shiftIds ids₂ l2.length) with
          | error m2 =>
            rw [hc2] at ihh
            simp [Except.map] at ihh
          | ok r2 =>
            rw [hc2] at ihh
            simp only [Except.map] at ihh
            injection ihh with hmapr
            simp only [Except.map, Except.ok.injEq]
            rw [List.map_append, List.map_append, hmap, hmapr]

/-! Helper lemmas about `String.join`. -/

lemma foldl_append_init (l : List String) : ∀ s : String,
    l.foldl (fun r t => r ++ t) s = s ++ l.foldl (fun r t => r ++ t) "" := by
  induction l with
  | nil => intro s; simp
  | cons a t ih =>
    intro s
    simp only [List.foldl_cons]
    rw [ih (s ++ a), ih ("" ++ a), String.empty_append, String.append_assoc]

lemma string_join_cons (a : String) (l : List String) :
    String.join (a :: l) = a ++ String.join l := by
  simp only [String.join, List.foldl_cons, String.empty_append]
  exact foldl_append_init l a

lemma string_join_append (l₁ l₂ : List String) :
    String.join (l₁ ++ l₂) = String.join l₁ ++ String.join l₂ := by
  induction l₁ with
  | nil => rw [List.nil_append]; exact (String.empty_append _).symm
  | cons a t ih =>
    rw [List.cons_append, string_join_cons, string_join_cons, ih,
      String.append_assoc]

/-- C6: `textify` skips a direct child exactly when the child's own text
payload is absent or the empty string — skipping it entirely, nested markup
included — and a child whose text is only whitespace counts as having text
and is not skipped. -/
theorem c6_skip_rule (tag : String) (attrib : List (String × String))
    (text tail : Option String) (pre post : List XMLElem) (c : XMLElem) :
    (textTruthy c.text = false →
      textify (.mk tag attrib text (pre ++ c :: post) tail) =
      textify (.mk tag attrib text (pre ++ post) tail)) ∧
    (textTruthy c.text = true →
      textify (.mk tag attrib text (pre ++ c :: post) tail) =
      textify (.mk tag attrib text pre tail) ++ pyStrip (serialize c) ++
        textify (.mk tag attrib text post tail)) ∧
    textTruthy (some " ") = true := by
  refine ⟨?_, ?_, by decide⟩
  · intro h
    simp only [textify, XMLElem.children, List.filter_append, List.filter_cons, h,
      Bool.false_eq_true, if_false]
  · intro h
    simp only [textify, XMLElem.children, List.filter_append, List.filter_cons, h,
      if_true, List.map_append, List.map_cons, string_join_append,
      string_join_cons, String.append_assoc]

/-- A child with no own text but with nested markup carrying text. -/
def c6SkippedChild : XMLElem :=
  .mk "p" [] none [.mk "b" [] (some "nested markup") [] none] none

/-- A child with a text payload. -/
def c6KeptChild : XMLElem :=
  .mk "p" [] (some "kept") [] none

/-- Closed instance of C6: the child with empty own text is skipped although
its nested markup has text, and whitespace-only text is truthy. -/
theorem c6_witness :
    (textTruthy c6SkippedChild.text = false ∧
     textify (.mk "logentry" [] none ([] ++ c6SkippedChild :: [c6KeptChild]) none) =
       textify (.mk "logentry" [] none ([] ++ [c6KeptChild]) none)) ∧
    textTruthy (some " ") = true :=
  ⟨⟨rfl, (c6_skip_rule "logentry" [] none none [] [c6KeptChild] c6SkippedChild).1 rfl⟩,
   (c6_skip_rule "logentry" [] none none [] [c6KeptChild] c6SkippedChild).2.2⟩

/-- C10: serializing a non-skipped child includes the child's tail text
after its markup, so after whitespace-stripping the tail contributes to the
note content produced by `textify`. -/
theorem c10_tail_serialized (tag : String) (attrib : List (String × String))
    (s t : String) (children : List XMLElem) (ptag : String)
    (pattrib : List (String × String)) (ptext ptail : Option String)
    (hs : s ≠ "") (ht : t ≠ "") :
    serialize (.mk tag attrib (some s) children (some t)) =
      serialize (.mk tag attrib (some s) children none) ++ escapeCdata t ∧
    textify (.mk ptag pattrib ptext [.mk tag attrib (some s) children (some t)] ptail) =
      pyStrip (serialize (.mk tag attrib (some s) children none) ++ escapeCdata t) := by
  have h1 : serialize (.mk tag attrib (some s) children (some t)) =
      serialize (.mk tag attrib (some s) children none) ++ escapeCdata t := by
    simp only [serialize, truthyText, if_neg ht, String.append_empty]
  refine ⟨h1, ?_⟩
  have htr : textTruthy (XMLElem.text (.mk tag attrib (some s) children (some t)))
      = true := by
    simp [XMLElem.text, textTruthy, hs]
  simp only [textify, XMLElem.children, List.filter_cons, htr, if_true,
    List.filter_nil, List.map_cons, List.map_nil, string_join_cons]
  rw [h1]
  exact String.append_empty _

/-- Closed instance of C10: a tail after the paragraph tag survives into the
extracted content. -/
theorem c10_witness :
    ("and the tail." ≠ "" ∧ "Paragraph text" ≠ "") ∧
    (serialize (.mk "p" [] (some "Paragraph text") [] (some "and the tail.")) =
       serialize (.mk "p" [] (some "Paragraph text") [] none) ++
         escapeCdata "and the tail." ∧
     textify (.mk "logentry" [] none
         [.mk "p" [] (some "Paragraph text") [] (some "and the tail.")] none) =
       pyStrip (serialize (.mk "p" [] (some "Paragraph text") [] none) ++
         escapeCdata "and the tail.")) :=
  ⟨⟨by decide, by decide⟩,
   c10_tail_serialized "p" [] "Paragraph text" "and the tail." [] "logentry" []
     none none (by decide) (by decide)⟩

/-! Malformed temporal fields abort the conversion. -/

lemma timeField_error_of_bad {e : XMLElem} {name : String}
    (h : timeFieldBad e name = true) : ∃ msg, timeField e name = .error msg := by
  cases hf : findChild e name with
  | none =>
    exact ⟨"AttributeError: NoneType has no attribute text: " ++ name,
      by simp [timeField, hf]⟩
  | some c =>
    cases ht : c.text with
    | none =>
      exact ⟨"TypeError: int() argument is None: " ++ name,
        by simp [timeField, hf, ht]⟩
    | some t =>
      cases hp : pyInt t with
      | none =>
        exact ⟨"ValueError: invalid literal for int(): " ++ t,
          by simp [timeField, hf, ht, hp]⟩
      | some v =>
        exfalso
        simp [timeFieldBad, hf, ht, hp] at h

lemma timeField_ok_of_good {e : XMLElem} {name : String}
    (h : timeFieldBad e name = false) : ∃ v, timeField e name = .ok v := by
  cases hf : findChild e name with
  | none => simp [timeFieldBad, hf] at h
  | some c =>
    cases ht : c.text with
    | none => simp [timeFieldBad, hf, ht] at h
    | some t =>
      cases hp : pyInt t with
      | none => simp [timeFieldBad, hf, ht, hp] at h
      | some v => exact ⟨v, by simp [timeField, hf, ht, hp]⟩

lemma timeOf_error_of_bad {e : XMLElem}
    (h : (timeFieldBad e "year" || timeFieldBad e "month" || timeFieldBad e "day")
      = true) :
    ∃ msg, timeOf e = .error msg := by
  unfold timeOf
  by_cases hy : timeFieldBad e "year" = true
  · obtain ⟨msg, hmsg⟩ := timeField_error_of_bad hy
    rw [hmsg]
    exact ⟨msg, rfl⟩
  · have hy' : timeFieldBad e "year" = false := by
      cases hb : timeFieldBad e "year" with
      | true => exact absurd hb hy
      | false => rfl
    obtain ⟨vy, hvy⟩ := timeField_ok_of_good hy'
    rw [hvy]
    by_cases hm : timeFieldBad e "month" = true
    · obtain ⟨msg, hmsg⟩ := timeField_error_of_bad hm
      rw [hmsg]
      exact ⟨msg, rfl⟩
    · have hm' : timeFieldBad e "month" = false := by
        cases hb : timeFieldBad e "month" with
        | true => exact absurd hb hm
        | false => rfl
      obtain ⟨vm, hvm⟩ := timeField_ok_of_good hm'
      rw [hvm]
      have hd : timeFieldBad e "day" = true := by
        rw [hy', hm'] at h
        simpa using h
      obtain ⟨msg, hmsg⟩ := timeField_error_of_bad hd
      rw [hmsg]
      exact ⟨msg, rfl⟩

lemma collect_error_of_mem (pt pv a : String) (e : XMLElem) (msg0 : String)
    (he : timeOf e = .error msg0) :
    ∀ (pre : List XMLElem) (post : List XMLElem) (ids : Nat → Nat),
      ∃ m, collectEntries pt pv a (pre ++ e :: post) ids = .error m := by
  intro pre
  induction pre with
  | nil =>
    intro post ids
    have hsp : split_entry e pt pv a ids = .error msg0 := by
      unfold split_entry
      rw [he]
    exact ⟨msg0, by simp [collectEntries, hsp]⟩
  | cons x xs ih =>
    intro post ids
    rw [List.cons_append]
    cases hx : split_entry x pt pv a ids with
    | error m => exact ⟨m, by simp [collectEntries, hx]⟩
    | ok notes =>
      obtain ⟨m, hm⟩ := ih post (shiftIds ids notes.length)
      exact ⟨m, by simp [collectEntries, hx, hm]⟩

/-- C3: a source entry whose `year`, `month` or `day` child is missing or
non-numeric makes `split_entry` fail, and when such an entry is among the
collected log entries the whole run aborts with an error and the
destination file is left unchanged. -/
theorem c3_malformed_time_fatal (e : XMLElem) (pt pv a : String) (ids : Nat → Nat)
    (hbad : (timeFieldBad e "year" || timeFieldBad e "month" || timeFieldBad e "day")
      = true) :
    (∃ msg, split_entry e pt pv a ids = .error msg) ∧
    ∀ (root logEl : XMLElem) (pre post : List XMLElem) (dest : List SettingsLine)
      (ids₂ : Nat → Nat),
      findCalendarLog root = some logEl →
      (logEl.children).filter (fun c => c.tag != "public") = pre ++ e :: post →
      (mainRun root pt pv a ids₂ dest).errorMsg.isSome = true ∧
      (mainRun root pt pv a ids₂ dest).dest = dest := by
  obtain ⟨msg0, hmsg⟩ := timeOf_error_of_bad hbad
  constructor
  · exact ⟨msg0, by unfold split_entry; rw [hmsg]⟩
  · intro root logEl pre post dest ids₂ hcal hlist
    obtain ⟨m, hm⟩ := collect_error_of_mem pt pv a e msg0 hmsg pre post ids₂
    simp [mainRun, hcal, hlist, hm]

/-- A source entry with no temporal children at all. -/
def brokenEntry : XMLElem :=
  .mk "id-00999" [] (some "\n") [samplePrivBlock, samplePubBlock] none

/-- Closed instance of C3 on a concrete malformed entry. -/
theorem c3_witness :
    (timeFieldBad brokenEntry "year" || timeFieldBad brokenEntry "month" ||
      timeFieldBad brokenEntry "day") = true ∧
    ((∃ msg, split_entry brokenEntry "Journal" "Notes" "zph8yxjDa80f9VnL" idsZero
        = .error msg) ∧
     ∀ (root logEl : XMLElem) (pre post : List XMLElem) (dest : List SettingsLine)
       (ids₂ : Nat → Nat),
       findCalendarLog root = some logEl →
       (logEl.children).filter (fun c => c.tag != "public")
         = pre ++ brokenEntry :: post →
       (mainRun root "Journal" "Notes" "zph8yxjDa80f9VnL" ids₂ dest).errorMsg.isSome
         = true ∧
       (mainRun root "Journal" "Notes" "zph8yxjDa80f9VnL" ids₂ dest).dest = dest) :=
  ⟨by decide,
   c3_malformed_time_fatal brokenEntry "Journal" "Notes" "zph8yxjDa80f9VnL" idsZero
     (by decide)⟩

/-! The settings-key lookup and the debug print of the 51st note. -/

lemma spliceValue_none {v : String} {dest : List SettingsLine}
    (h : ∀ l ∈ dest, l.key ≠ CAL_SETTINGS) : spliceValue v dest = none := by
  induction dest with
  | nil => rfl
  | cons l rest ih =>
    have hk : (l.key == CAL_SETTINGS) = false :=
      beq_eq_false_iff_ne.mpr (h l (List.mem_cons_self l rest))
    simp only [spliceValue, hk, Bool.false_eq_true, if_false]
    rw [ih (fun x hx => h x (List.mem_cons_of_mem l hx))]
    rfl

/-- C7 (amended): when the run reaches the settings lookup — the conversion
succeeded and produced more than 50 notes — and no destination line carries
the notes key, the run aborts with exit code 1 and a message naming the
missing key, leaving the destination unchanged. -/
theorem c7_missing_key_aborts (root : XMLElem) (pt pv a : String) (ids : Nat → Nat)
    (dest : List SettingsLine) (entries : List Note)
    (hrun : runCollect root pt pv a ids = some entries)
    (hlen : 50 < entries.length)
    (hkey : ∀ l ∈ dest, l.key ≠ CAL_SETTINGS) :
    mainRun root pt pv a ids dest =
      { backupCreated := true,
        errorMsg := some ("Failed to find settings: " ++ CAL_SETTINGS),
        exitCode := 1, dest := dest } ∧
    mentions ("Failed to find settings: " ++ CAL_SETTINGS) CAL_SETTINGS = true := by
  refine ⟨?_, by decide⟩
  unfold runCollect at hrun
  unfold mainRun
  cases hcal : findCalendarLog root with
  | none =>
    rw [hcal] at hrun
    exact absurd hrun (by simp)
  | some logEl =>
    rw [hcal] at hrun
    dsimp only at hrun ⊢
    cases hce : collectEntries pt pv a
        ((logEl.children).filter (fun c => c.tag != "public")) ids with
    | error m =>
      rw [hce] at hrun
      exact absurd hrun (by simp)
    | ok l =>
      rw [hce] at hrun
      dsimp only at hrun
      injection hrun with hl
      subst hl
      dsimp only
      rw [if_neg (by omega)]
      rw [spliceValue_none hkey]

/-- A source document whose calendar log holds no entries. -/
def smallRoot : XMLElem :=
  .mk "root" [] none [.mk "calendar" [] none [.mk "log" [] none [] none] none] none

/-- A destination file without the notes key. -/
def c7Dest : List SettingsLine :=
  [{ key := "core.moduleConfiguration", value := "1" }]

/-- Counterexample to C7 as stated: with the notes key absent from the
destination but at most 50 notes converted, the run aborts with the
indexing error of the debug print, whose message does not name the key. -/
theorem c7_counterexample :
    (∀ l ∈ c7Dest, l.key ≠ CAL_SETTINGS) ∧
    mainRun smallRoot "Journal" "Notes" "zph8yxjDa80f9VnL" idsZero c7Dest =
      { backupCreated := true, errorMsg := some "IndexError: list index out of range",
        exitCode := 1, dest := c7Dest } ∧
    mentions "IndexError: list index out of range" CAL_SETTINGS = false :=
  ⟨by decide, by rfl, by decide⟩

/-- The private note produced from `sampleEntryBoth` under zero draws. -/
def sampleBothPrivNote : Note where
  id := "00000000"
  content := "<p>Left Karina in the company of Sharvaros.</p>"
  playerVisible := false
  title := "Notes"
  priority := 1
  author := "zph8yxjDa80f9VnL"
  repeats := 0
  allDay := true
  categories := []
  remindUsers := []
  endDate := { seconds := 0, year := 4721, month := 1, day := 9, hour := 0, minute := 0 }
  year := 4721
  month := 1
  day := 9
  hour := 0
  minute := 0

/-- A source document with 26 entries, each yielding two notes. -/
def bigRoot : XMLElem :=
  .mk "root" [] none
    [.mk "calendar" [] none
      [.mk "log" [] none
        (.mk "public" [] none [] none :: List.replicate 26 sampleEntryBoth) none]
      none] none

/-- The 52 notes converted from `bigRoot` under zero draws. -/
def bigEntries : List Note :=
  (List.replicate 26 [samplePubOnlyNote, sampleBothPrivNote]).flatten

/-- Closed instance of the amended C7. -/
theorem c7_witness :
    (runCollect bigRoot "Journal" "Notes" "zph8yxjDa80f9VnL" idsZero
       = some bigEntries ∧
     50 < bigEntries.length ∧ ∀ l ∈ c7Dest, l.key ≠ CAL_SETTINGS) ∧
    (mainRun bigRoot "Journal" "Notes" "zph8yxjDa80f9VnL" idsZero c7Dest =
       { backupCreated := true,
         errorMsg := some ("Failed to find settings: " ++ CAL_SETTINGS),
         exitCode := 1, dest := c7Dest } ∧
     mentions ("Failed to find settings: " ++ CAL_SETTINGS) CAL_SETTINGS = true) :=
  ⟨⟨by rfl, by decide, by decide⟩,
   c7_missing_key_aborts bigRoot "Journal" "Notes" "zph8yxjDa80f9VnL" idsZero
     c7Dest bigEntries (by rfl) (by decide) (by decide)⟩

/-- C9: when the conversion succeeds with at most 50 notes, the run aborts
with the out-of-range indexing error of the debug print of the 51st note,
after the backup copy was created and before the destination is written. -/
theorem c9_few_notes_index_error (root : XMLElem) (pt pv a : String)
    (ids : Nat → Nat) (dest : List SettingsLine) (entries : List Note)
    (hrun : runCollect root pt pv a ids = some entries)
    (hlen : entries.length ≤ 50) :
    mainRun root pt pv a ids dest =
      { backupCreated := true, errorMsg := some "IndexError: list index out of range",
        exitCode := 1, dest := dest } := by
  unfold runCollect at hrun
  unfold mainRun
  cases hcal : findCalendarLog root with
  | none =>
    rw [hcal] at hrun
    exact absurd hrun (by simp)
  | some logEl =>
    rw [hcal] at hrun
    dsimp only at hrun ⊢
    cases hce : collectEntries pt pv a
        ((logEl.children).filter (fun c => c.tag != "public")) ids with
    | error m =>
      rw [hce] at hrun
      exact absurd hrun (by simp)
    | ok l =>
      rw [hce] at hrun
      dsimp only at hrun
      injection hrun with hl
      subst hl
      dsimp only
      rw [if_pos hlen]

/-- A destination file that does carry the notes key. -/
def c9Dest : List SettingsLine :=
  [{ key := CAL_SETTINGS, value := "[]" }]

/-- Closed instance of C9: an empty calendar log aborts with the indexing
error even though the destination holds the notes key. -/
theorem c9_witness :
    (runCollect smallRoot "Journal" "Notes" "zph8yxjDa80f9VnL" idsZero = some [] ∧
     ([] : List Note).length ≤ 50) ∧
    mainRun smallRoot "Journal" "Notes" "zph8yxjDa80f9VnL" idsZero c9Dest =
      { backupCreated := true, errorMsg := some "IndexError: list index out of range",
        exitCode := 1, dest := c9Dest } :=
  ⟨⟨by rfl, by decide⟩,
   c9_few_notes_index_error smallRoot "Journal" "Notes" "zph8yxjDa80f9VnL" idsZero
     c9Dest [] (by rfl) (by decide)⟩

/-- C4: the write step does not truncate — line 245 references
`args["fvtt"].truncate` without calling it — so when the old destination
content is longer than the rewritten lines, the final content is a mixture
of the new data and stale old bytes: neither the new lines nor the old
content. -/
theorem c4_truncate_never_called :
    overwriteSettings "0123456789" ["ABCDE"] = "ABCDE56789" ∧
    overwriteSettings "0123456789" ["ABCDE"] ≠ String.join ["ABCDE"] ∧
    overwriteSettings "0123456789" ["ABCDE"] ≠ "0123456789" :=
  ⟨by rfl, by decide, by decide⟩

end FGU
